import Mathlib

/-!
Verification of the core logic of `moja_pogoda.py` (a small astro-weather CLI).

The shallow embedding models Python numbers as exact rationals (`ℚ`),
Python `int(...)` as truncation toward zero, Python `round(...)` as
round-half-to-even, Python `%` on numbers as floor-mod (sign of the
divisor), and timestamps as integer minute counts (a `datetime`'s calendar
date is its floor-division by 1440, the minutes of a day; the comparisons
and window arithmetic of the source only ever use whole hours).

Embedded functions, with their Python sources:
* `astro_score`    — `astro_score(cloud, wind, vis_km)` (lines 48–53)
* `bar`            — `bar(score, width)` (lines 55–57)
* `fmt_dir`        — `fmt_dir(deg)` (lines 59–62)
* `tonight_indexes`— `tonight_indexes(times)` (lines 64–71)
* `sampleScore`, `bestLoop`, `show_tonight_best` — the scoring/best-pick
  loop of `show_tonight` (lines 124–148)
* `show_now_score` — the default-substitution and scoring of `show_now`
  (lines 100–112)
-/

namespace MojaPogoda

/-- Truncation toward zero on `ℚ`, the behaviour of Python's `int(...)`
on a float: floor for non-negative arguments, ceiling for negative ones. -/
def ratTrunc (q : ℚ) : ℤ := if 0 ≤ q then ⌊q⌋ else -⌊-q⌋

/-- Round-half-to-even on `ℚ`, the behaviour of Python's `round(...)`
with no digit argument (banker's rounding). -/
def pyRound (q : ℚ) : ℤ :=
  if q - ⌊q⌋ < 1/2 then ⌊q⌋
  else if 1/2 < q - ⌊q⌋ then ⌊q⌋ + 1
  else if ⌊q⌋ % 2 = 0 then ⌊q⌋ else ⌊q⌋ + 1

/-- Python's `%` on numbers: `a % b = a - b * floor(a / b)`, so the result
carries the sign of the divisor. -/
def pyMod (a b : ℚ) : ℚ := a - b * ⌊a / b⌋

/-- Python string repetition `c * n`: `n` copies of the character for
`n > 0`, the empty string for `n ≤ 0`. -/
def pyStrRepeat (c : Char) (n : ℤ) : String := String.mk (List.replicate n.toNat c)

/-- Embedding of `astro_score(cloud, wind, vis_km)` (source lines 48–53):
`base = 100 - cloud`, `wind_pen = max(0, (wind-15)*1.5)`,
`vis_boost = min(10, max(0, vis_km - 5))`, result
`max(0, min(100, int(base - wind_pen + vis_boost)))`. -/
def astro_score (cloud wind vis_km : ℚ) : ℤ :=
  max 0 (min 100 (ratTrunc ((100 - cloud) - max 0 ((wind - 15) * 1.5) + min 10 (max 0 (vis_km - 5)))))

/-- Reference scoring rule transcribed from the specification text (§4.1):
`base = 100 - cloud_cover_pct`, `wind_penalty = max(0, (wind_speed_kph - 15) * 1.5)`,
`visibility_bonus = min(10, max(0, visibility_km - 5))`,
`raw = base - wind_penalty + visibility_bonus`, and the result is `raw`
truncated to an integer (after combining, not per term) and clamped
into `[0, 100]`. -/
def spec_score (cloud_cover_pct wind_speed_kph visibility_km : ℚ) : ℤ :=
  max 0 (min 100 (ratTrunc
    ((100 - cloud_cover_pct)
      - max 0 ((wind_speed_kph - 15) * 1.5)
      + min 10 (max 0 (visibility_km - 5)))))

/-- Embedding of `bar(score, width)` (source lines 55–57):
`filled = int(round(score/100*width))`, then `filled` filled marks
followed by `width - filled` empty marks (Python `"c"*n` is empty for
`n ≤ 0`, which `pyStrRepeat` mirrors). -/
def bar (score : ℚ) (width : ℤ) : String :=
  pyStrRepeat '★' (pyRound (score / 100 * (width : ℚ))) ++
  pyStrRepeat '.' (width - pyRound (score / 100 * (width : ℚ)))

/-- The eight compass strings of `fmt_dir` (source line 61). -/
def dirs : List String := ["N", "NE", "E", "SE", "S", "SW", "W", "NW"]

/-- The index computation of `fmt_dir` (source line 62):
`int((deg % 360) / 45 + 0.5) % 8`; the outer `%` is an integer floor-mod. -/
def dirIndex (deg : ℚ) : ℤ := ratTrunc (pyMod deg 360 / 45 + 1/2) % 8

/-- Embedding of `fmt_dir(deg)` (source lines 59–62). `none` as input
models an absent reading; a `none` result would model an `IndexError`
from the list indexing (we prove it cannot happen: the index is
provably in `0..7`, so the non-negative `toNat` view is exact). -/
def fmt_dir : Option ℚ → Option String
  | none => some "—"
  | some deg => dirs.get? (dirIndex deg).toNat

/-- Start of the night window for first timestamp `t0` (source line 68):
the date of `t0` (floor-division by 1440 minutes) at 18:00. -/
def nightStart (t0 : ℤ) : ℤ := t0.fdiv 1440 * 1440 + 18 * 60

/-- End of the night window for first timestamp `t0` (source line 69):
the day after the date of `t0`, at 08:00. -/
def nightEnd (t0 : ℤ) : ℤ := (t0.fdiv 1440 + 1) * 1440 + 8 * 60

/-- The window membership test of the comprehension on source line 70:
`t >= start and t < end`. -/
def inNight (t0 t : ℤ) : Bool := decide (nightStart t0 ≤ t) && decide (t < nightEnd t0)

/-- The list comprehension `idxs` of source line 70: the indexes of the
timestamps that fall inside the night window of the first timestamp, in
their original order. -/
def windowIdxs : List ℤ → List ℕ
  | [] => []
  | t0 :: rest =>
    (List.range (t0 :: rest).length).filter (fun i => inNight t0 ((t0 :: rest).getD i 0))

/-- Embedding of `tonight_indexes(times)` (source lines 64–71): empty
input gives the empty list; otherwise the windowed indexes, falling back
to all indexes when the windowed selection is empty (`idxs or
list(range(len(times)))`). -/
def tonight_indexes : List ℤ → List ℕ
  | [] => []
  | t0 :: rest =>
    if windowIdxs (t0 :: rest) = [] then List.range (t0 :: rest).length
    else windowIdxs (t0 :: rest)

/-- One hourly sample as consumed by `show_tonight` (source lines
126–141): timestamp in minutes, cloud cover, wind speed, and optional
visibility in meters. -/
structure Sample where
  time : ℤ
  cloud : ℚ
  wind : ℚ
  vis : Option ℚ
  deriving DecidableEq

/-- The per-row score of `show_tonight` (source lines 138–141):
`cc = int(round(cloud[i]))`, `vk = vis[i]/1000.0` when visibility is
present, and `sc = astro_score(cc, ws, vk if vk is not None else 10.0)`. -/
def sampleScore (s : Sample) : ℤ :=
  astro_score ((pyRound s.cloud : ℤ) : ℚ) s.wind ((s.vis.map (fun v => v / 1000)).getD 10)

/-- The row of the best-pick accumulator for one sample: its score and
its timestamp. -/
def sampleRow (s : Sample) : ℤ × ℤ := (sampleScore s, s.time)

/-- The loop guard `limit is not None and shown >= limit` of source
line 135. -/
def limReached (lim : Option ℤ) (shown : ℤ) : Bool :=
  match lim with
  | some n => decide (n ≤ shown)
  | none => false

/-- The best-pick loop of `show_tonight` (source lines 132–146) over the
already-scored rows: starting from `best = (-1, None)`, process rows in
order, stopping once `shown >= limit`, and replace the accumulator
exactly when the row's score is strictly greater. -/
def bestLoop : List (ℤ × ℤ) → Option ℤ → ℤ → ℤ × Option ℤ → ℤ × Option ℤ
  | [], _, _, b => b
  | p :: rest, lim, shown, b =>
    if limReached lim shown then b
    else bestLoop rest lim (shown + 1) (if b.1 < p.1 then (p.1, some p.2) else b)

/-- The limit-free core of `bestLoop`, used to reason about it. -/
def bestFold : List (ℤ × ℤ) → ℤ × Option ℤ → ℤ × Option ℤ
  | [], b => b
  | p :: rest, b => bestFold rest (if b.1 < p.1 then (p.1, some p.2) else b)

/-- The best-pick computation of `show_tonight` (source lines 132–148)
over a list of (already window-selected) samples with an optional row
limit: the final `best` pair of the loop. -/
def show_tonight_best (samples : List Sample) (lim : Option ℤ) : ℤ × Option ℤ :=
  bestLoop (samples.map sampleRow) lim 0 (-1, none)

/-- The scoring path of `show_now` (source lines 100–112): defaults
`cloud = 50`, `wind = 5.0`, `vis_km = 10.0` substituted for absent
fields, visibility converted from meters by dividing by 1000, cloud
rounded to an integer, then `astro_score`. -/
def show_now_score (CC WS VI : Option ℚ) : ℤ :=
  astro_score
    (match CC with | some c => ((pyRound c : ℤ) : ℚ) | none => 50)
    (match WS with | some w => w | none => 5)
    (match VI with | some v => v / 1000 | none => 10)

/-! ## Helper lemmas -/

theorem ratTrunc_nonneg {q : ℚ} (h : 0 ≤ q) : 0 ≤ ratTrunc q := by
  rw [ratTrunc, if_pos h]
  exact Int.floor_nonneg.mpr h

theorem ratTrunc_mono {a b : ℚ} (h : a ≤ b) : ratTrunc a ≤ ratTrunc b := by
  by_cases ha : 0 ≤ a
  · have hb : 0 ≤ b := le_trans ha h
    rw [ratTrunc, ratTrunc, if_pos ha, if_pos hb]
    exact Int.floor_mono h
  · by_cases hb : 0 ≤ b
    · rw [ratTrunc, ratTrunc, if_neg ha, if_pos hb]
      have h1 : 0 ≤ ⌊-a⌋ := Int.floor_nonneg.mpr (by linarith [lt_of_not_le ha])
      have h2 : 0 ≤ ⌊b⌋ := Int.floor_nonneg.mpr hb
      omega
    · rw [ratTrunc, ratTrunc, if_neg ha, if_neg hb]
      have := Int.floor_mono (neg_le_neg h)
      omega

theorem astro_score_nonneg (c w v : ℚ) : 0 ≤ astro_score c w v :=
  le_max_left 0 _

theorem astro_score_le (c w v : ℚ) : astro_score c w v ≤ 100 :=
  max_le (by norm_num) (min_le_left _ _)

/-! ## Claim theorems -/

/-- C1: `astro_score` coincides with the reference definition from the
specification (base minus wind penalty plus visibility bonus, truncated
after combining and clamped into `[0,100]`), and the three worked
examples hold: `score(50, 20, 10) = 47`, `score(0, 0, 15) = 100`,
`score(100, 0, 0) = 0`. -/
theorem C1_reference_score :
    (∀ cloud wind vis_km : ℚ, astro_score cloud wind vis_km = spec_score cloud wind vis_km)
    ∧ astro_score 50 20 10 = 47
    ∧ astro_score 0 0 15 = 100
    ∧ astro_score 100 0 0 = 0 := by
  refine ⟨fun _ _ _ => rfl, ?_, ?_, ?_⟩
  · norm_num [astro_score, ratTrunc]
  · norm_num [astro_score, ratTrunc]
  · norm_num [astro_score, ratTrunc]

/-- C2: `astro_score` is total and bounded: every rational input triple,
with no range restriction at all, yields an integer in `[0, 100]`. -/
theorem C2_total_bounded :
    ∀ cloud wind vis_km : ℚ,
      0 ≤ astro_score cloud wind vis_km ∧ astro_score cloud wind vis_km ≤ 100 :=
  fun c w v => ⟨astro_score_nonneg c w v, astro_score_le c w v⟩

/-- C6: `astro_score` is monotone in each argument: non-increasing in
cloud cover, non-increasing in wind speed above the 15 km/h threshold,
and non-decreasing in visibility up to 15 km. -/
theorem C6_monotone :
    (∀ c1 c2 w v : ℚ, c1 ≤ c2 → astro_score c2 w v ≤ astro_score c1 w v)
    ∧ (∀ c w1 w2 v : ℚ, 15 ≤ w1 → w1 ≤ w2 → astro_score c w2 v ≤ astro_score c w1 v)
    ∧ (∀ c w v1 v2 : ℚ, v1 ≤ v2 → v2 ≤ 15 → astro_score c w v1 ≤ astro_score c w v2) := by
  refine ⟨fun c1 c2 w v h => ?_, fun c w1 w2 v _ h => ?_, fun c w v1 v2 h _ => ?_⟩
  · exact max_le_max le_rfl (min_le_min le_rfl (ratTrunc_mono (by linarith)))
  · have hpen : max 0 ((w1 - 15) * 1.5) ≤ max 0 ((w2 - 15) * 1.5) :=
      max_le_max le_rfl (mul_le_mul_of_nonneg_right (by linarith) (by norm_num))
    exact max_le_max le_rfl (min_le_min le_rfl (ratTrunc_mono (by linarith)))
  · have hboost : min 10 (max 0 (v1 - 5)) ≤ min 10 (max 0 (v2 - 5)) :=
      min_le_min le_rfl (max_le_max le_rfl (by linarith))
    exact max_le_max le_rfl (min_le_min le_rfl (ratTrunc_mono (by linarith)))

/-- Witness for C6 at concrete inputs: each hypothesis is discharged at
cloud 0 ≤ 50, wind 16 ≤ 30 above the 15 km/h threshold, and visibility
5 ≤ 9 below 15 km. -/
theorem C6_monotone_witness :
    ((0 : ℚ) ≤ 50 ∧ astro_score 50 10 10 ≤ astro_score 0 10 10)
    ∧ ((15 : ℚ) ≤ 16 ∧ (16 : ℚ) ≤ 30 ∧ astro_score 20 30 10 ≤ astro_score 20 16 10)
    ∧ ((5 : ℚ) ≤ 9 ∧ (9 : ℚ) ≤ 15 ∧ astro_score 20 10 5 ≤ astro_score 20 10 9) :=
  ⟨⟨by norm_num, C6_monotone.1 0 50 10 10 (by norm_num)⟩,
   ⟨by norm_num, by norm_num, C6_monotone.2.1 20 16 30 10 (by norm_num) (by norm_num)⟩,
   ⟨by norm_num, by norm_num, C6_monotone.2.2 20 10 5 9 (by norm_num) (by norm_num)⟩⟩

/-- C7: in tonight mode a present visibility (meters) is divided by 1000
before scoring and an absent visibility is scored as the default 10.0 km;
in now mode absent cloud, wind and visibility are replaced by the
defaults 50, 5.0 and 10.0 km before scoring, and a present visibility is
likewise divided by 1000. -/
theorem C7_units_defaults :
    (∀ (t : ℤ) (c w : ℚ),
      sampleScore ⟨t, c, w, none⟩ = astro_score ((pyRound c : ℤ) : ℚ) w 10)
    ∧ (∀ (t : ℤ) (c w v : ℚ),
      sampleScore ⟨t, c, w, some v⟩ = astro_score ((pyRound c : ℤ) : ℚ) w (v / 1000))
    ∧ show_now_score none none none = astro_score 50 5 10
    ∧ (∀ c : ℚ, show_now_score (some c) none none = astro_score ((pyRound c : ℤ) : ℚ) 5 10)
    ∧ (∀ w : ℚ, show_now_score none (some w) none = astro_score 50 w 10)
    ∧ (∀ v : ℚ, show_now_score none none (some v) = astro_score 50 5 (v / 1000))
    ∧ (∀ c w v : ℚ,
      show_now_score (some c) (some w) (some v) = astro_score ((pyRound c : ℤ) : ℚ) w (v / 1000)) :=
  ⟨fun _ _ _ => rfl, fun _ _ _ _ => rfl, rfl, fun _ => rfl, fun _ => rfl, fun _ => rfl,
   fun _ _ _ => rfl⟩

/-- C5: `tonight_indexes` on the empty list is empty; on a non-empty
list whose windowed selection is empty it falls back to all indexes; and
its result is empty only when the input itself is empty. -/
theorem C5_fallback :
    tonight_indexes [] = []
    ∧ (∀ times : List ℤ, times ≠ [] → windowIdxs times = [] →
        tonight_indexes times = List.range times.length)
    ∧ (∀ times : List ℤ, tonight_indexes times = [] → times = []) := by
  refine ⟨rfl, fun times hne hw => ?_, fun times h => ?_⟩
  · match times with
    | [] => exact absurd rfl hne
    | t0 :: rest => rw [tonight_indexes, if_pos hw]
  · match times with
    | [] => rfl
    | t0 :: rest =>
      rw [tonight_indexes] at h
      by_cases hw : windowIdxs (t0 :: rest) = []
      · rw [if_pos hw] at h
        exact absurd h (by simp)
      · rw [if_neg hw] at h
        exact absurd h hw

/-- Witness for C5: a single sample at 12:00 (720 minutes) lies outside
the night window, so the fallback returns all indexes; and the empty
input instantiates the emptiness direction. -/
theorem C5_fallback_witness :
    (([(720 : ℤ)] : List ℤ) ≠ [] ∧ windowIdxs [(720 : ℤ)] = []
      ∧ tonight_indexes [(720 : ℤ)] = List.range ([(720 : ℤ)] : List ℤ).length)
    ∧ (tonight_indexes ([] : List ℤ) = [] ∧ ([] : List ℤ) = []) :=
  ⟨⟨by decide, by decide, C5_fallback.2.1 [(720 : ℤ)] (by decide) (by decide)⟩,
   ⟨rfl, C5_fallback.2.2 [] rfl⟩⟩

/-- Counterexample to C3 as stated: the single sample at 12:00 (720
minutes into day 0) is outside the night window `[18:00, 08:00)` of its
own date, so the claimed result (the empty selection) differs from the
code's result, which falls back to returning index 0. -/
theorem C3_counterexample :
    tonight_indexes [(720 : ℤ)] = [0]
    ∧ inNight 720 720 = false
    ∧ ¬ (nightStart 720 ≤ 720 ∧ (720 : ℤ) < nightEnd 720) := by
  refine ⟨by decide, by decide, by decide⟩

/-- C3 (amended): on a non-empty input whose windowed selection is
non-empty, `tonight_indexes` returns exactly the indexes of the samples
`s` with `today at 18:00 ≤ s.timestamp < (today + 1 day) at 08:00`
(where `today` is the date of the first sample), in the original order
(the index list is strictly increasing). -/
theorem C3_window_exact :
    ∀ (t0 : ℤ) (rest : List ℤ), windowIdxs (t0 :: rest) ≠ [] →
      tonight_indexes (t0 :: rest) = windowIdxs (t0 :: rest)
      ∧ (∀ i : ℕ, i ∈ tonight_indexes (t0 :: rest) ↔
          i < (t0 :: rest).length
          ∧ nightStart t0 ≤ (t0 :: rest).getD i 0
          ∧ (t0 :: rest).getD i 0 < nightEnd t0)
      ∧ List.Pairwise (· < ·) (tonight_indexes (t0 :: rest)) := by
  intro t0 rest hne
  have heq : tonight_indexes (t0 :: rest) = windowIdxs (t0 :: rest) := by
    rw [tonight_indexes, if_neg hne]
  refine ⟨heq, fun i => ?_, ?_⟩
  · rw [heq, windowIdxs, List.mem_filter, List.mem_range]
    simp [inNight, and_assoc]
  · rw [heq, windowIdxs]
    exact (List.pairwise_lt_range _).filter _

/-- Witness for C3 (amended): a single sample exactly at 18:00 is inside
its own night window, so the selection is non-empty and is returned
as-is. -/
theorem C3_window_exact_witness :
    windowIdxs [(1080 : ℤ)] ≠ []
    ∧ tonight_indexes [(1080 : ℤ)] = windowIdxs [(1080 : ℤ)] :=
  ⟨by decide, (C3_window_exact 1080 [] (by decide)).1⟩

theorem pyRound_nonneg {q : ℚ} (h : 0 ≤ q) : 0 ≤ pyRound q := by
  have h0 : 0 ≤ ⌊q⌋ := Int.floor_nonneg.mpr h
  rw [pyRound]
  split_ifs <;> omega

theorem pyRound_le {q : ℚ} {w : ℤ} (h : q ≤ (w : ℚ)) : pyRound q ≤ w := by
  have hf : ⌊q⌋ ≤ w := by
    have := Int.floor_mono h
    rwa [Int.floor_intCast] at this
  have hstrict : ¬ (q - ⌊q⌋ < 1/2) → ⌊q⌋ + 1 ≤ w := by
    intro hge
    have h1 : (1 : ℚ)/2 ≤ q - ⌊q⌋ := le_of_not_lt hge
    have h2 : ((⌊q⌋ : ℚ)) < (w : ℚ) := by
      calc ((⌊q⌋ : ℚ)) < q := by linarith
        _ ≤ (w : ℚ) := h
    exact_mod_cast Int.add_one_le_iff.mpr (by exact_mod_cast h2)
  rw [pyRound]
  split_ifs with h1 h2 h3
  · exact hf
  · exact hstrict h1
  · exact hf
  · exact hstrict h1

theorem pyStrRepeat_length (c : Char) (n : ℤ) : (pyStrRepeat c n).length = n.toNat := by
  simp [pyStrRepeat]

theorem pyMod_nonneg_360 (a : ℚ) : 0 ≤ pyMod a 360 := by
  have h := Int.fract_nonneg (a / 360)
  rw [Int.fract] at h
  rw [pyMod]
  nlinarith

theorem pyMod_lt_360 (a : ℚ) : pyMod a 360 < 360 := by
  have h := Int.fract_lt_one (a / 360)
  rw [Int.fract] at h
  rw [pyMod]
  nlinarith

/-- C8: for every score in `[0, 100]` and width `≥ 0`, `bar` returns a
string of exactly `width` characters: `round(score/100*width)` filled
marks (the rounded count provably lies in `[0, width]`) followed by
empty marks for the remainder. It is a plain function, hence
deterministic and total on this domain. -/
theorem C8_bar_shape :
    ∀ (score : ℚ) (width : ℤ), 0 ≤ score → score ≤ 100 → 0 ≤ width →
      (bar score width).length = width.toNat
      ∧ 0 ≤ pyRound (score / 100 * (width : ℚ))
      ∧ pyRound (score / 100 * (width : ℚ)) ≤ width
      ∧ bar score width =
          pyStrRepeat '★' (pyRound (score / 100 * (width : ℚ))) ++
          pyStrRepeat '.' (width - pyRound (score / 100 * (width : ℚ))) := by
  intro score width h0 h100 hw
  have hwQ : (0 : ℚ) ≤ (width : ℚ) := by exact_mod_cast hw
  have hx0 : 0 ≤ score / 100 * (width : ℚ) :=
    mul_nonneg (div_nonneg h0 (by norm_num)) hwQ
  have hx1 : score / 100 * (width : ℚ) ≤ (width : ℚ) := by
    have hle : score / 100 ≤ 1 := by linarith
    calc score / 100 * (width : ℚ) ≤ 1 * (width : ℚ) :=
          mul_le_mul_of_nonneg_right hle hwQ
      _ = (width : ℚ) := one_mul _
  have hr0 : 0 ≤ pyRound (score / 100 * (width : ℚ)) := pyRound_nonneg hx0
  have hr1 : pyRound (score / 100 * (width : ℚ)) ≤ width := pyRound_le hx1
  refine ⟨?_, hr0, hr1, rfl⟩
  rw [bar, String.length_append, pyStrRepeat_length, pyStrRepeat_length]
  omega

/-- Witness for C8 at score 50 and width 12: the bar is six filled marks
followed by six empty marks, twelve characters in all. -/
theorem C8_bar_shape_witness :
    (0 : ℚ) ≤ 50 ∧ (50 : ℚ) ≤ 100 ∧ (0 : ℤ) ≤ 12
    ∧ ((bar 50 12).length = (12 : ℤ).toNat
        ∧ 0 ≤ pyRound ((50 : ℚ) / 100 * ((12 : ℤ) : ℚ))
        ∧ pyRound ((50 : ℚ) / 100 * ((12 : ℤ) : ℚ)) ≤ 12
        ∧ bar 50 12 =
            pyStrRepeat '★' (pyRound ((50 : ℚ) / 100 * ((12 : ℤ) : ℚ))) ++
            pyStrRepeat '.' (12 - pyRound ((50 : ℚ) / 100 * ((12 : ℤ) : ℚ)))) :=
  ⟨by norm_num, by norm_num, by norm_num,
   C8_bar_shape 50 12 (by norm_num) (by norm_num) (by norm_num)⟩

/-- C10: the wind-direction formatter is total and in-range: for every
rational degree value (negative values and values at or above 360
included) the computed index lies in `0..7` and the result is one of the
eight compass strings, and an absent input yields the placeholder. -/
theorem C10_fmt_dir_total :
    fmt_dir none = some "—"
    ∧ ∀ deg : ℚ, 0 ≤ dirIndex deg ∧ dirIndex deg < 8
        ∧ ∃ s, fmt_dir (some deg) = some s ∧ s ∈ dirs := by
  refine ⟨rfl, fun deg => ?_⟩
  have h0 : 0 ≤ dirIndex deg := Int.emod_nonneg _ (by norm_num)
  have h8 : dirIndex deg < 8 := Int.emod_lt_of_pos _ (by norm_num)
  have hlt : (dirIndex deg).toNat < dirs.length := by
    rw [show dirs.length = 8 from rfl]
    omega
  refine ⟨h0, h8, dirs.get ⟨(dirIndex deg).toNat, hlt⟩, ?_, List.get_mem _ _ hlt⟩
  rw [fmt_dir]
  exact List.get?_eq_get hlt

theorem sampleScore_nonneg (s : Sample) : 0 ≤ sampleScore s :=
  astro_score_nonneg _ _ _

theorem bestLoop_none (l : List (ℤ × ℤ)) :
    ∀ (shown : ℤ) (b : ℤ × Option ℤ), bestLoop l none shown b = bestFold l b := by
  induction l with
  | nil => intro shown b; rfl
  | cons p rest ih =>
    intro shown b
    have h : bestLoop (p :: rest) none shown b
        = bestLoop rest none (shown + 1) (if b.1 < p.1 then (p.1, some p.2) else b) := by
      simp [bestLoop, limReached]
    rw [h, ih]
    rfl

theorem bestLoop_some (l : List (ℤ × ℤ)) (n : ℤ) :
    ∀ (shown : ℤ) (b : ℤ × Option ℤ),
      bestLoop l (some n) shown b = bestFold (l.take (n - shown).toNat) b := by
  induction l with
  | nil => intro shown b; simp [bestLoop, bestFold]
  | cons p rest ih =>
    intro shown b
    by_cases hr : n ≤ shown
    · have h0 : (n - shown).toNat = 0 := by omega
      rw [h0, List.take_zero]
      simp [bestLoop, bestFold, limReached, hr]
    · have h1 : (n - shown).toNat = (n - (shown + 1)).toNat + 1 := by omega
      have hL : bestLoop (p :: rest) (some n) shown b
          = bestLoop rest (some n) (shown + 1) (if b.1 < p.1 then (p.1, some p.2) else b) := by
        simp [bestLoop, limReached, hr]
      rw [hL, ih, h1, List.take_succ_cons]
      rfl

theorem bestFold_spec (l : List (ℤ × ℤ)) :
    ∀ b : ℤ × Option ℤ,
      (bestFold l b = b ∧ ∀ j, j < l.length → (l.getD j (0, 0)).1 ≤ b.1)
      ∨ (∃ i, i < l.length
          ∧ bestFold l b = ((l.getD i (0, 0)).1, some (l.getD i (0, 0)).2)
          ∧ b.1 < (l.getD i (0, 0)).1
          ∧ (∀ j, j < l.length → (l.getD j (0, 0)).1 ≤ (l.getD i (0, 0)).1)
          ∧ (∀ j, j < i → (l.getD j (0, 0)).1 < (l.getD i (0, 0)).1)) := by
  induction l with
  | nil =>
    intro b
    exact Or.inl ⟨rfl, fun j hj => absurd hj (by simp)⟩
  | cons p rest ih =>
    intro b
    by_cases hpb : b.1 < p.1
    · have hstep : bestFold (p :: rest) b = bestFold rest (p.1, some p.2) := by
        simp [bestFold, hpb]
      rcases ih (p.1, some p.2) with ⟨heq, hall⟩ | ⟨i, hi, heq, hlt, hall, hfirst⟩
      · refine Or.inr ⟨0, by simp, ?_, ?_, ?_, ?_⟩
        · rw [hstep, heq, List.getD_cons_zero]
        · simpa using hpb
        · intro j hj
          cases j with
          | zero => exact le_refl _
          | succ j =>
            rw [List.getD_cons_succ, List.getD_cons_zero]
            exact hall j (by simpa using hj)
        · intro j hj
          exact absurd hj (Nat.not_lt_zero j)
      · refine Or.inr ⟨i + 1, by simpa using hi, ?_, ?_, ?_, ?_⟩
        · rw [hstep, heq, List.getD_cons_succ]
        · rw [List.getD_cons_succ]
          exact lt_trans hpb hlt
        · intro j hj
          cases j with
          | zero =>
            rw [List.getD_cons_zero, List.getD_cons_succ]
            exact le_of_lt hlt
          | succ j =>
            rw [List.getD_cons_succ, List.getD_cons_succ]
            exact hall j (by simpa using hj)
        · intro j hj
          cases j with
          | zero =>
            rw [List.getD_cons_zero, List.getD_cons_succ]
            exact hlt
          | succ j =>
            rw [List.getD_cons_succ, List.getD_cons_succ]
            exact hfirst j (by omega)
    · have hstep : bestFold (p :: rest) b = bestFold rest b := by
        simp [bestFold, hpb]
      rcases ih b with ⟨heq, hall⟩ | ⟨i, hi, heq, hlt, hall, hfirst⟩
      · refine Or.inl ⟨hstep.trans heq, ?_⟩
        intro j hj
        cases j with
        | zero =>
          rw [List.getD_cons_zero]
          exact le_of_not_lt hpb
        | succ j =>
          rw [List.getD_cons_succ]
          exact hall j (by simpa using hj)
      · refine Or.inr ⟨i + 1, by simpa using hi, ?_, ?_, ?_, ?_⟩
        · rw [hstep, heq, List.getD_cons_succ]
        · rw [List.getD_cons_succ]
          exact hlt
        · intro j hj
          cases j with
          | zero =>
            rw [List.getD_cons_zero, List.getD_cons_succ]
            exact le_of_lt (lt_of_le_of_lt (le_of_not_lt hpb) hlt)
          | succ j =>
            rw [List.getD_cons_succ, List.getD_cons_succ]
            exact hall j (by simpa using hj)
        · intro j hj
          cases j with
          | zero =>
            rw [List.getD_cons_zero, List.getD_cons_succ]
            exact lt_of_le_of_lt (le_of_not_lt hpb) hlt
          | succ j =>
            rw [List.getD_cons_succ, List.getD_cons_succ]
            exact hfirst j (by omega)

theorem map_sampleRow_getD (samples : List Sample) (j : ℕ) (hj : j < samples.length) :
    (samples.map sampleRow).getD j (0, 0) = sampleRow (samples.getD j ⟨0, 0, 0, none⟩) := by
  rw [List.getD_eq_getElem _ _ (by simpa using hj), List.getD_eq_getElem _ _ hj,
    List.getElem_map]

/-- C4: the best-pick loop with no row limit returns the score and
timestamp of a sample whose score is maximal over the whole input, and
that sample is the chronologically first one attaining the maximum
(every earlier sample scores strictly lower, because the loop replaces
the accumulator only on a strictly greater score); on the empty input
there is no pick. -/
theorem C4_best_pick :
    (show_tonight_best [] none).2 = none
    ∧ ∀ samples : List Sample, samples ≠ [] →
        ∃ i, i < samples.length
          ∧ show_tonight_best samples none
              = (sampleScore (samples.getD i ⟨0, 0, 0, none⟩),
                 some (samples.getD i ⟨0, 0, 0, none⟩).time)
          ∧ (∀ j, j < samples.length →
              sampleScore (samples.getD j ⟨0, 0, 0, none⟩)
                ≤ sampleScore (samples.getD i ⟨0, 0, 0, none⟩))
          ∧ (∀ j, j < i →
              sampleScore (samples.getD j ⟨0, 0, 0, none⟩)
                < sampleScore (samples.getD i ⟨0, 0, 0, none⟩)) := by
  constructor
  · rfl
  · intro samples hne
    have hlen : 0 < samples.length := List.length_pos.mpr hne
    have hmain : show_tonight_best samples none = bestFold (samples.map sampleRow) (-1, none) := by
      rw [show_tonight_best, bestLoop_none]
    rcases bestFold_spec (samples.map sampleRow) (-1, none)
      with ⟨heq, hall⟩ | ⟨i, hi, heq, hlt, hall, hfirst⟩
    · exfalso
      have h0 := hall 0 (by simpa using hlen)
      rw [map_sampleRow_getD _ _ hlen] at h0
      have h1 : 0 ≤ sampleScore (samples.getD 0 ⟨0, 0, 0, none⟩) := sampleScore_nonneg _
      exact absurd (le_trans h1 h0) (by norm_num)
    · have hi' : i < samples.length := by simpa using hi
      refine ⟨i, hi', ?_, ?_, ?_⟩
      · rw [hmain, heq, map_sampleRow_getD _ _ hi']
        rfl
      · intro j hj
        have h := hall j (by simpa using hj)
        rw [map_sampleRow_getD _ _ hj, map_sampleRow_getD _ _ hi'] at h
        exact h
      · intro j hj
        have h := hfirst j hj
        rw [map_sampleRow_getD _ _ (lt_trans hj hi'), map_sampleRow_getD _ _ hi'] at h
        exact h

/-- Witness for C4: on the one-sample list with a clear sky, calm wind
and default visibility, the pick is that sample's score 100 at its
timestamp. -/
theorem C4_best_pick_witness :
    ([(⟨0, 0, 0, none⟩ : Sample)] ≠ [])
    ∧ show_tonight_best [(⟨0, 0, 0, none⟩ : Sample)] none = (100, some 0) := by
  refine ⟨by simp, ?_⟩
  obtain ⟨i, hi, heq, -, -⟩ := C4_best_pick.2 [(⟨0, 0, 0, none⟩ : Sample)] (by simp)
  have h0 : i = 0 := by
    simp only [List.length_singleton] at hi
    omega
  subst h0
  rw [heq]
  norm_num [sampleScore, astro_score, ratTrunc, pyRound]

/-- C9: with a row limit `n`, the best pick of `show_tonight` is the
best pick of the first `n` selected rows alone — samples beyond the
displayed rows never influence it — and with limit 0 no pick is
produced at all (the accumulator keeps its initial `(-1, none)`). -/
theorem C9_limit :
    (∀ (samples : List Sample) (n : ℤ),
        show_tonight_best samples (some n) = show_tonight_best (samples.take n.toNat) none)
    ∧ (∀ samples : List Sample, (show_tonight_best samples (some 0)).2 = none) := by
  constructor
  · intro samples n
    rw [show_tonight_best, show_tonight_best, bestLoop_some, bestLoop_none, sub_zero,
      List.map_take]
  · intro samples
    rw [show_tonight_best, bestLoop_some, sub_zero]
    simp [bestFold]

end MojaPogoda
